import Mathlib

/-!
Verification of the price reconciliation engine of the Iconsana/cycle1-shopify
repository, shallowly embedded from `src/crawler.py` and `src/price_monitor.py`.
Python floats are modelled as exact rationals; Python dicts as association
lists with insert-or-replace semantics preserving insertion order.
-/

attribute [local semireducible] Rat.add Rat.mul Rat.inv Rat.sub Rat.ofScientific

/- ## Basic helpers: Python dict and string primitives -/

/-- Keys of an association list (a Python dict's key view, in insertion order). -/
def keysOf {α : Type} (l : List (String × α)) : List String := l.map (·.1)

/-- Insert-or-replace into an association list, mirroring Python dict
assignment `d[k] = v`: an existing key keeps its original position, a new
key is appended at the end. -/
def insertReplace {α : Type} (l : List (String × α)) (k : String) (v : α) :
    List (String × α) :=
  if l.any (fun p => p.1 = k) then l.map (fun p => if p.1 = k then (k, v) else p)
  else l ++ [(k, v)]

/-- Python whitespace characters (the set stripped by `str.strip()`). -/
def pyWS (c : Char) : Bool :=
  c = ' ' || c = '\t' || c = '\n' || c = '\r' || c = '\x0b' || c = '\x0c'

/-- Model of Python `str.strip()`: drop leading and trailing whitespace. -/
def pyStrip (l : List Char) : List Char :=
  ((l.dropWhile pyWS).reverse.dropWhile pyWS).reverse

/-- Does `p` occur at the head of `l`? (substring-match helper). -/
def leadsWith : List Char → List Char → Bool
  | [], _ => true
  | _ :: _, [] => false
  | p :: ps, c :: cs => p = c && leadsWith ps cs

/-- Worker for `replaceAllL`. The first numeric argument counts characters
still to be skipped because they were consumed by a pattern match. -/
def replaceAllAux (pat rep : List Char) : ℕ → List Char → List Char
  | _ + 1, [] => []
  | skip + 1, _ :: rest => replaceAllAux pat rep skip rest
  | 0, [] => []
  | 0, c :: rest =>
    if leadsWith pat (c :: rest) ∧ 0 < pat.length then
      rep ++ replaceAllAux pat rep (pat.length - 1) rest
    else c :: replaceAllAux pat rep 0 rest

/-- Model of Python `str.replace(pat, rep)`: replace every occurrence,
scanning left to right without overlap. -/
def replaceAllL (pat rep l : List Char) : List Char :=
  replaceAllAux pat rep 0 l

/- ## PriceExtractor: `ACDCCrawler._extract_price` (src/crawler.py:65-108) -/

/-- The cleaning pipeline of `_extract_price`, steps in source order:
remove the phrases `EXCL VAT` and `EXCL. VAT` and strip; remove brackets;
remove the currency letter `R` and strip; remove spaces; disambiguate the
separators (both `,` and `.` present means commas are discarded, otherwise
commas become dots); finally drop everything but digits and dots
(`re.sub(r'[^\d.]', '', ...)`, read over ASCII digits). -/
def cleanedText (s : String) : List Char :=
  let l1 := pyStrip (replaceAllL "EXCL. VAT".data [] (replaceAllL "EXCL VAT".data [] s.data))
  let l2 := l1.filter (fun c => c ≠ '(' ∧ c ≠ ')')
  let l3 := pyStrip (l2.filter (fun c => c ≠ 'R'))
  let l4 := l3.filter (fun c => c ≠ ' ')
  let l5 := if ',' ∈ l4 ∧ '.' ∈ l4 then l4.filter (· ≠ ',')
            else l4.map (fun c => if c = ',' then '.' else c)
  l5.filter (fun c => c.isDigit || c = '.')

/-- Numeric value of a digit string (most significant first). -/
def digitsToNat (l : List Char) : ℕ :=
  l.foldl (fun n c => 10 * n + (c.toNat - 48)) 0

/-- Model of Python `float()` applied to a string drawn from the alphabet of
digits and dots (the only characters `cleanedText` can produce): the parse
succeeds exactly when there is at most one dot and at least one digit, and
yields the exact decimal value as a rational. -/
def pyFloatDigits (l : List Char) : Option ℚ :=
  if l.count '.' ≤ 1 ∧ l.any (·.isDigit) then
    let ip := l.takeWhile (· ≠ '.')
    let fp := (l.dropWhile (· ≠ '.')).drop 1
    some ((digitsToNat ip : ℚ) + (digitsToNat fp : ℚ) / (10 : ℚ) ^ fp.length)
  else none

/-- Embedding of `ACDCCrawler._extract_price` (src/crawler.py:65-108).
Returns `none` for empty input, cleans the text, parses the residue as a
decimal and accepts the value only when `0 < price < 1000000`. -/
def extract_price (s : String) : Option ℚ :=
  if s.data = [] then none
  else if cleanedText s ≠ [] then
    match pyFloatDigits (cleanedText s) with
    | some price => if 0 < price ∧ price < 1000000 then some price else none
    | none => none
  else none

lemma cleanedText_nil (s : String) (h : s.data = []) : cleanedText s = [] := by
  obtain ⟨d⟩ := s
  simp only [String.data] at h
  subst h
  rfl

set_option maxHeartbeats 2000000 in
/-- C1: price extraction strips VAT annotations, brackets and the currency
symbol, disambiguates the separators (both present: commas dropped; only
commas: turned into dots), parses the remaining numeric token as a decimal
and returns it exactly when `0 < value < 1000000`, otherwise `none`; the
four example inputs of the spec behave as stated. -/
theorem extract_price_spec :
    (∀ (s : String) (v : ℚ), extract_price s = some v ↔
      (pyFloatDigits (cleanedText s) = some v ∧ 0 < v ∧ v < 1000000))
    ∧ extract_price "R 6,077.00 (EXCL VAT)" = some 6077
    ∧ extract_price "R1,234.56" = some (123456 / 100)
    ∧ extract_price "not a price" = none
    ∧ extract_price "R 0.00" = none := by
  refine ⟨?_, by decide, by decide, by decide, by decide⟩
  intro s v
  rw [extract_price]
  split
  · rename_i hd
    rw [cleanedText_nil s hd]
    rw [show pyFloatDigits ([] : List Char) = none from rfl]
    simp
  · rename_i hd
    split
    · rename_i hne
      cases hfd : pyFloatDigits (cleanedText s) with
      | none => simp
      | some p =>
        change (if 0 < p ∧ p < 1000000 then some p else none) = some v ↔
          some p = some v ∧ 0 < v ∧ v < 1000000
        by_cases hb : 0 < p ∧ p < 1000000
        · rw [if_pos hb]
          constructor
          · intro h
            injection h with h
            subst h
            exact ⟨rfl, hb.1, hb.2⟩
          · rintro ⟨h, _, _⟩
            injection h with h
            rw [h]
        · rw [if_neg hb]
          constructor
          · intro h; cases h
          · rintro ⟨h, h0, h1⟩
            injection h with h
            subst h
            exact absurd ⟨h0, h1⟩ hb
    · rename_i hne
      rw [not_not] at hne
      rw [hne]
      rw [show pyFloatDigits ([] : List Char) = none from rfl]
      simp

/- ## Markup computation: `PriceMonitor.calculate_variant_price`
   (src/price_monitor.py:45-54) -/

/-- Round to the nearest integer, ties to even (the rounding used by the
Python built-in `round`, here on exact rationals). -/
def roundHalfEven (q : ℚ) : ℤ :=
  if q - ⌊q⌋ < 1/2 then ⌊q⌋
  else if 1/2 < q - ⌊q⌋ then ⌊q⌋ + 1
  else if ⌊q⌋ % 2 = 0 then ⌊q⌋ else ⌊q⌋ + 1

/-- Model of Python `round(x, 2)` on exact rationals. -/
def pyRound2 (q : ℚ) : ℚ := (roundHalfEven (q * 100) : ℚ) / 100

/-- Embedding of `PriceMonitor.calculate_variant_price`
(src/price_monitor.py:45-54): apply the markup multiplier, then the
hard-coded 15 percent VAT factor `1.15`, and round to 2 decimals. The
`try/except` around the arithmetic cannot fire on numeric inputs and is
omitted. -/
def calculate_variant_price (acdc_price markup_percentage : ℚ) : ℚ :=
  let markup_multiplier := 1 + markup_percentage / 100
  let base_price := acdc_price * markup_multiplier
  let variant_price := base_price * (115 / 100)
  pyRound2 variant_price

/-- Modelled from the spec: rounding half up at 2 decimal places, as the
spec's words prescribe for the sell price. For comparison with the code. -/
def roundHalfUp2 (q : ℚ) : ℚ := ((⌊q * 100 + 1/2⌋ : ℤ) : ℚ) / 100

/-- Modelled from the spec: the claimed sell-price formula with an explicit
tax-rate parameter `t`, `p * (1 + m/100) * (1 + t)` rounded half up to
2 decimals. -/
def specSellPrice (p m t : ℚ) : ℚ := roundHalfUp2 (p * (1 + m / 100) * (1 + t))

/-- C2 counterexample: the code ignores the tax rate. At
`p = 100, m = 0, t = 0.3` the claimed formula yields `130.00`, but
`calculate_variant_price` returns `115.00` because VAT is hard-coded at
15 percent. -/
theorem calculate_variant_price_cex :
    calculate_variant_price 100 0 = 115
    ∧ specSellPrice 100 0 (3/10) = 130
    ∧ (115 : ℚ) ≠ 130 :=
  ⟨by decide, by decide, by decide⟩

/-- C2 (amended): the computed sell price equals
`p * (1 + m/100) * (1 + 15/100)` — the tax rate is hard-coded at 15
percent — rounded to 2 decimal places by Python's `round`; in particular
`p = 100, m = 40` yields exactly `161.00`. -/
theorem calculate_variant_price_formula :
    (∀ p m : ℚ, calculate_variant_price p m = pyRound2 (p * (1 + m / 100) * (1 + 15/100)))
    ∧ calculate_variant_price 100 40 = 161 := by
  constructor
  · intro p m
    show pyRound2 (p * (1 + m / 100) * (115 / 100)) = _
    norm_num
  · decide

/- ## Prepared update rows: the per-SKU loop of `PriceMonitor.process_updates`
   (src/price_monitor.py:142-164) -/

/-- A crawler result entry as stored by `process_sku`
(src/crawler.py:204-210). -/
structure PriceEntry where
  price : ℚ
  timestamp : String
  source : String
deriving DecidableEq

/-- Per-SKU data read from the sheet by `get_skus_and_data`
(src/price_monitor.py:78-87). -/
structure SkuInfo where
  title : String
  current_price : ℚ
deriving DecidableEq

/-- The 8-column `row_data` constructed by `process_updates`
(src/price_monitor.py:153-162), with numeric cells kept as exact rationals
in place of Python's `str(...)` rendering. -/
structure UpdateRow where
  sku : String
  title : String
  currentPrice : ℚ
  newPrice : ℚ
  priceDifference : ℚ
  lastChecked : String
  status : String
  variantPrice : ℚ
deriving DecidableEq

/-- The per-SKU loop of `process_updates` (src/price_monitor.py:145-164):
one update row per crawl-result entry, in crawl-result order. Ledger data
for an unknown SKU defaults to empty title and current price 0
(`sku_data.get(sku, {})` with `.get(..., 0)` defaults); the price
difference is `round(current - new, 2)` when both prices are truthy
(nonzero) and `0` otherwise; the status cell is the constant string
`'ACDC Dynamic Updated'`. -/
def prepareUpdates (price_data : List (String × PriceEntry))
    (sku_data : List (String × SkuInfo)) (markup_percentage : ℚ)
    (timestamp : String) : List UpdateRow :=
  price_data.map fun p =>
    let existing := (sku_data.lookup p.1).getD ⟨"", 0⟩
    let current_price := existing.current_price
    let new_price := p.2.price
    { sku := p.1
      title := existing.title
      currentPrice := current_price
      newPrice := new_price
      priceDifference :=
        if current_price ≠ 0 ∧ new_price ≠ 0 then pyRound2 (current_price - new_price) else 0
      lastChecked := timestamp
      status := "ACDC Dynamic Updated"
      variantPrice := calculate_variant_price new_price markup_percentage }

/-- C3 counterexample: with recorded price `100.00` and new price `100.02`
the difference exceeds `0.01`, yet the written status is the constant
`'ACDC Dynamic Updated'`, not `'PriceChanged'`; no classification happens. -/
theorem process_updates_status_cex :
    (prepareUpdates [("X", ⟨10002/100, "t1", "ACDC Dynamics"⟩)] [("X", ⟨"Widget", 100⟩)] 40 "t1").map
        (·.status) = ["ACDC Dynamic Updated"]
    ∧ (100 : ℚ) - 10002/100 < -(1/100)
    ∧ "ACDC Dynamic Updated" ≠ "PriceChanged" :=
  ⟨by decide, by decide, by decide⟩

/-- C3 (amended): for every SKU in the crawl result the written row carries
`price_diff = round(recorded - new, 2)` when both prices are nonzero (else
`0`), and its status is always the constant `'ACDC Dynamic Updated'` -
there is no `UpToDate`/`PriceChanged` classification. -/
theorem process_updates_diff_status (pd : List (String × PriceEntry))
    (sd : List (String × SkuInfo)) (m : ℚ) (ts : String) (r : UpdateRow)
    (hr : r ∈ prepareUpdates pd sd m ts) :
    r.status = "ACDC Dynamic Updated"
    ∧ r.priceDifference =
        (if r.currentPrice ≠ 0 ∧ r.newPrice ≠ 0
         then pyRound2 (r.currentPrice - r.newPrice) else 0) := by
  simp only [prepareUpdates, List.mem_map] at hr
  obtain ⟨p, _, rfl⟩ := hr
  exact ⟨rfl, rfl⟩

/-- The row produced by the prepared-update loop for the witness input of
the C3 theorem. -/
def c3WitnessRow : UpdateRow :=
  ⟨"X", "", 0, 100, 0, "t", "ACDC Dynamic Updated", 161⟩

/-- Witness for the C3 theorem at a concrete crawl entry. -/
theorem process_updates_diff_status_witness :
    c3WitnessRow.status = "ACDC Dynamic Updated"
    ∧ c3WitnessRow.priceDifference =
        (if c3WitnessRow.currentPrice ≠ 0 ∧ c3WitnessRow.newPrice ≠ 0
         then pyRound2 (c3WitnessRow.currentPrice - c3WitnessRow.newPrice) else 0) :=
  process_updates_diff_status [("X", ⟨100, "t", "ACDC Dynamics"⟩)] [] 40 "t"
    c3WitnessRow (by decide)

/- ## Batched sheet writes: `PriceMonitor.update_batch` range placement
   (src/price_monitor.py:97-134, 166-179) -/

/-- Replace the sheet rows starting at position `off` with `rows`
(position 0 stands for spreadsheet row 2, matching
`start_row = 2 + i`). Rows beyond the end of the sheet are dropped: a
range update rewrites existing rows only. -/
def writeRange : List UpdateRow → ℕ → List UpdateRow → List UpdateRow
  | [], _, _ => []
  | sheet, _, [] => sheet
  | _ :: srest, 0, r :: rrest => r :: writeRange srest 0 rrest
  | s :: srest, off + 1, rows => s :: writeRange srest off rows


lemma writeRange_nil (off : ℕ) (rows : List UpdateRow) : writeRange [] off rows = [] := by
  cases rows <;> cases off <;> rfl

lemma writeRange_nil_rows (sheet : List UpdateRow) (off : ℕ) :
    writeRange sheet off [] = sheet := by
  cases sheet <;> cases off <;> rfl

lemma writeRange_cons_zero (s : UpdateRow) (srest : List UpdateRow) (r : UpdateRow)
    (rrest : List UpdateRow) :
    writeRange (s :: srest) 0 (r :: rrest) = r :: writeRange srest 0 rrest := rfl

lemma writeRange_cons_succ (s : UpdateRow) (srest : List UpdateRow) (off : ℕ) (r : UpdateRow)
    (rrest : List UpdateRow) :
    writeRange (s :: srest) (off + 1) (r :: rrest) = s :: writeRange srest off (r :: rrest) := rfl

lemma writeRange_length (sheet : List UpdateRow) :
    ∀ (off : ℕ) (rows : List UpdateRow), (writeRange sheet off rows).length = sheet.length := by
  induction sheet with
  | nil => intro off rows; rw [writeRange_nil]
  | cons s srest ih =>
    intro off rows
    cases rows with
    | nil => rw [writeRange_nil_rows]
    | cons r rrest =>
      cases off with
      | zero => rw [writeRange_cons_zero]; simp [ih]
      | succ off => rw [writeRange_cons_succ]; simp [ih]

lemma writeRange_getElem? (sheet : List UpdateRow) :
    ∀ (off : ℕ) (rows : List UpdateRow) (j : ℕ),
      (writeRange sheet off rows)[j]? =
        if off ≤ j ∧ j - off < rows.length ∧ j < sheet.length
        then rows[j - off]? else sheet[j]? := by
  induction sheet with
  | nil =>
    intro off rows j
    rw [writeRange_nil, List.length_nil, if_neg (by omega)]
  | cons s srest ih =>
    intro off rows j
    cases rows with
    | nil =>
      rw [writeRange_nil_rows, List.length_nil, if_neg (by omega)]
    | cons r rrest =>
      cases off with
      | zero =>
        rw [writeRange_cons_zero]
        cases j with
        | zero =>
          rw [List.getElem?_cons_zero, if_pos (by simp only [List.length_cons]; omega)]
          simp
        | succ j =>
          rw [List.getElem?_cons_succ, ih 0 rrest j]
          simp only [Nat.sub_zero, List.length_cons, Nat.add_sub_cancel,
            List.getElem?_cons_succ]
          by_cases hc : j < rrest.length ∧ j < srest.length
          · rw [if_pos (by omega), if_pos (by omega)]
          · rw [if_neg (by omega), if_neg (by omega)]
      | succ off =>
        rw [writeRange_cons_succ]
        cases j with
        | zero =>
          rw [List.getElem?_cons_zero, if_neg (by omega), List.getElem?_cons_zero]
        | succ j =>
          rw [List.getElem?_cons_succ, ih off (r :: rrest) j]
          simp only [List.length_cons, Nat.succ_sub_succ, List.getElem?_cons_succ]
          by_cases hc : off ≤ j ∧ j - off < rrest.length + 1 ∧ j < srest.length
          · rw [if_pos hc, if_pos (by omega)]
          · rw [if_neg hc, if_neg (by omega)]

lemma writeRange_writeRange (sheet : List UpdateRow) (off : ℕ) (A B : List UpdateRow) :
    writeRange (writeRange sheet off A) (off + A.length) B = writeRange sheet off (A ++ B) := by
  apply List.ext_getElem?
  intro j
  rw [writeRange_getElem?, writeRange_getElem?, writeRange_getElem?, writeRange_length,
    List.length_append]
  by_cases h1 : off + A.length ≤ j ∧ j - (off + A.length) < B.length ∧ j < sheet.length
  · rw [if_pos h1, if_pos (by omega), List.getElem?_append_right (by omega)]
    congr 1
    omega
  · rw [if_neg h1]
    by_cases h2 : off ≤ j ∧ j - off < A.length ∧ j < sheet.length
    · rw [if_pos h2, if_pos (by omega), List.getElem?_append, if_pos (by omega)]
    · rw [if_neg h2, if_neg (by omega)]

/- ## The retry loop of `PriceMonitor.update_batch` (src/price_monitor.py:97-134) -/

/-- Outcome of one attempted ledger batch write, as seen by `update_batch`:
success, an exception whose text contains `RATE_LIMIT_EXCEEDED`, or any
other exception. -/
inductive WriteOutcome
  | success
  | rateLimit
  | otherError
deriving DecidableEq

/-- The retry loop of `update_batch` with `retry_delay = 2`. First argument
of the recursion: the current attempt index; second: attempts remaining
(including the current one). Returns the success flag and the list of
backoff sleeps performed, in seconds. A rate-limit failure always sleeps
`2 * 2 ^ attempt` and retries; another error sleeps and retries unless the
current attempt is the last, in which case `False` is returned at once.
Exhausting the loop returns `False`. -/
def updateBatchRun (outcome : ℕ → WriteOutcome) : ℕ → ℕ → Bool × List ℕ
  | _, 0 => (false, [])
  | attempt, remaining + 1 =>
    match outcome attempt with
    | .success => (true, [])
    | .rateLimit =>
      let r := updateBatchRun outcome (attempt + 1) remaining
      (r.1, 2 * 2 ^ attempt :: r.2)
    | .otherError =>
      if remaining = 0 then (false, [])
      else
        let r := updateBatchRun outcome (attempt + 1) remaining
        (r.1, 2 * 2 ^ attempt :: r.2)

/-- Embedding of `PriceMonitor.update_batch` (src/price_monitor.py:97-134)
with `max_retries = 3`: run the retry loop from attempt 0. The outcome
oracle abstracts the ledger backend's response to each attempt. -/
def update_batch (outcome : ℕ → WriteOutcome) : Bool × List ℕ :=
  updateBatchRun outcome 0 3

/- ## The batch loop of `PriceMonitor.process_updates`
   (src/price_monitor.py:166-179) -/

/-- The aggregated error string recorded for a batch that failed after all
retries (src/price_monitor.py:176-178). -/
def errMsg (batch : List UpdateRow) : String :=
  "Failed to update batch with SKUs: " ++ String.intercalate ", " (batch.map (·.sku))

/-- Run summary returned by `process_updates` (and `check_all_prices`). -/
structure UpdateResults where
  updated : ℕ
  failed : ℕ
  errors : List String
deriving DecidableEq

/-- The accounting part of the batch loop `for i in range(0, len, batch_size)`
of `process_updates`: `fuel` counts remaining loop iterations, `b` is the
index of the current batch (used to query the per-batch success flag), and
`acc` is the running summary. A successful batch adds its size to
`updated`; a failed one adds its size to `failed` and appends one
aggregated error string. -/
def runBatchResults (okB : ℕ → Bool) (bs : ℕ) : ℕ → ℕ → List UpdateRow → UpdateResults → UpdateResults
  | 0, _, _, acc => acc
  | fuel + 1, b, ups, acc =>
    let batch := ups.take bs
    let acc' :=
      if okB b then { acc with updated := acc.updated + batch.length }
      else { acc with failed := acc.failed + batch.length, errors := acc.errors ++ [errMsg batch] }
    runBatchResults okB bs fuel (b + 1) (ups.drop bs) acc'

/-- The sheet state produced by the batch loop: batch `b` starts at offset
`off = b * batch_size` inside the prepared updates and is written to sheet
positions starting at that same offset (`start_row = 2 + i`, with sheet
position 0 standing for row 2). A batch whose write failed changes
nothing. -/
def runBatchWrites (okB : ℕ → Bool) (bs : ℕ) : ℕ → ℕ → ℕ → List UpdateRow → List UpdateRow → List UpdateRow
  | 0, _, _, _, sheet => sheet
  | fuel + 1, b, off, ups, sheet =>
    let sheet' := if okB b then writeRange sheet off (ups.take bs) else sheet
    runBatchWrites okB bs fuel (b + 1) (off + bs) (ups.drop bs) sheet'

/-- Embedding of `PriceMonitor.process_updates` (src/price_monitor.py:136-187),
summary part: prepare one row per crawl entry, then write in batches of
`batch_size = 30`. `outcomes b a` is the ledger backend's response to
attempt `a` of batch `b`. -/
def process_updates (outcomes : ℕ → ℕ → WriteOutcome) (price_data : List (String × PriceEntry))
    (sku_data : List (String × SkuInfo)) (markup_percentage : ℚ) (ts : String) : UpdateResults :=
  let ups := prepareUpdates price_data sku_data markup_percentage ts
  runBatchResults (fun b => (update_batch (outcomes b)).1) 30
    ((ups.length + 30 - 1) / 30) 0 ups ⟨0, 0, []⟩

/-- Embedding of `PriceMonitor.process_updates`, ledger-effect part: the
sheet contents after the batched writes, with sheet position `j` standing
for spreadsheet row `2 + j`. -/
def sheetAfterUpdates (outcomes : ℕ → ℕ → WriteOutcome) (price_data : List (String × PriceEntry))
    (sku_data : List (String × SkuInfo)) (markup_percentage : ℚ) (ts : String)
    (sheet : List UpdateRow) : List UpdateRow :=
  let ups := prepareUpdates price_data sku_data markup_percentage ts
  runBatchWrites (fun b => (update_batch (outcomes b)).1) 30
    ((ups.length + 30 - 1) / 30) 0 0 ups sheet

/-- Outcome oracle for runs where every ledger write succeeds at once. -/
def allSuccess : ℕ → ℕ → WriteOutcome := fun _ _ => WriteOutcome.success

lemma ceil_mul_ge (n bs : ℕ) (hbs : 0 < bs) : n ≤ (n + bs - 1) / bs * bs := by
  have h1 := Nat.div_add_mod (n + bs - 1) bs
  have h2 := Nat.mod_lt (n + bs - 1) hbs
  have h3 : (n + bs - 1) / bs * bs = bs * ((n + bs - 1) / bs) := Nat.mul_comm _ _
  omega

lemma runBatchWrites_all_ok (okB : ℕ → Bool) (hok : ∀ b, okB b = true) (bs : ℕ) :
    ∀ (fuel b off : ℕ) (ups sheet : List UpdateRow),
      runBatchWrites okB bs fuel b off ups sheet = writeRange sheet off (ups.take (fuel * bs)) := by
  intro fuel
  induction fuel with
  | zero =>
    intro b off ups sheet
    rw [show runBatchWrites okB bs 0 b off ups sheet = sheet from rfl]
    rw [Nat.zero_mul, List.take_zero, writeRange_nil_rows]
  | succ fuel ih =>
    intro b off ups sheet
    show runBatchWrites okB bs fuel (b + 1) (off + bs) (ups.drop bs)
        (if okB b then writeRange sheet off (ups.take bs) else sheet) = _
    rw [hok b, if_pos rfl, ih]
    by_cases hlen : bs ≤ ups.length
    · have hA : (ups.take bs).length = bs := by
        rw [List.length_take]
        omega
      rw [show off + bs = off + (ups.take bs).length from by rw [hA]]
      rw [writeRange_writeRange]
      congr 1
      rw [Nat.succ_mul, Nat.add_comm (fuel * bs) bs, ← List.take_add]
    · have hdrop : ups.drop bs = [] := by
        rw [List.drop_eq_nil_iff]
        omega
      rw [hdrop, List.take_nil, writeRange_nil_rows]
      have h1 : ups.take bs = ups := List.take_of_length_le (by omega)
      have h2 : ups.take ((fuel + 1) * bs) = ups := List.take_of_length_le (by
        have := Nat.succ_mul fuel bs
        have : bs ≤ (fuel + 1) * bs := by
          rw [Nat.succ_mul]
          omega
        omega)
      rw [h1, h2]

set_option maxHeartbeats 800000 in
/-- C4 (amended): update rows are placed purely by enumeration order of the
crawl result - with every write succeeding, the `j`-th prepared update is
written to sheet position `j` (spreadsheet row `2 + j`) regardless of the
sheet's prior contents or of where that SKU sits in the ledger, and every
sheet row at or beyond the number of prepared updates keeps its old value.
An update therefore lands on a row belonging to a different SKU exactly
when the `j`-th crawled SKU differs from the sheet's `j`-th SKU. -/
theorem process_updates_row_placement (pd : List (String × PriceEntry))
    (sd : List (String × SkuInfo)) (m : ℚ) (ts : String) (sheet : List UpdateRow)
    (h : (prepareUpdates pd sd m ts).length ≤ sheet.length) :
    (∀ j, j < (prepareUpdates pd sd m ts).length →
      (sheetAfterUpdates allSuccess pd sd m ts sheet)[j]? = (prepareUpdates pd sd m ts)[j]?)
    ∧ (∀ j, (prepareUpdates pd sd m ts).length ≤ j →
      (sheetAfterUpdates allSuccess pd sd m ts sheet)[j]? = sheet[j]?) := by
  have hrw : sheetAfterUpdates allSuccess pd sd m ts sheet =
      writeRange sheet 0 (prepareUpdates pd sd m ts) := by
    show runBatchWrites _ 30 _ 0 0 _ sheet = _
    rw [runBatchWrites_all_ok (fun b => (update_batch (allSuccess b)).1) (fun b => rfl) 30]
    congr 1
    exact List.take_of_length_le (ceil_mul_ge _ 30 (by omega))
  constructor
  · intro j hj
    rw [hrw, writeRange_getElem?]
    rw [if_pos (by omega), Nat.sub_zero]
  · intro j hj
    rw [hrw, writeRange_getElem?]
    rw [if_neg (by omega)]

/-- Witness sheet rows for the C4 theorems: two pre-existing ledger rows. -/
def c4OldRowA : UpdateRow := ⟨"A", "old title A", 120, 0, 0, "t0", "old", 0⟩

/-- Second pre-existing ledger row for the C4 theorems. -/
def c4OldRowB : UpdateRow := ⟨"B", "old title B", 80, 0, 0, "t0", "old", 0⟩

/-- Witness crawl result for the C4 theorems: only SKU `A` was crawled. -/
def c4PriceData : List (String × PriceEntry) := [("A", ⟨100, "t1", "ACDC Dynamics"⟩)]

/-- Witness ledger data for the C4 theorems. -/
def c4SkuData : List (String × SkuInfo) := [("A", ⟨"old title A", 120⟩), ("B", ⟨"old title B", 80⟩)]

/-- Witness for the C4 theorem at the concrete two-row sheet. -/
theorem process_updates_row_placement_witness :
    (sheetAfterUpdates allSuccess c4PriceData c4SkuData 40 "t1" [c4OldRowA, c4OldRowB])[0]? =
      (prepareUpdates c4PriceData c4SkuData 40 "t1")[0]?
    ∧ (sheetAfterUpdates allSuccess c4PriceData c4SkuData 40 "t1" [c4OldRowA, c4OldRowB])[1]? =
      [c4OldRowA, c4OldRowB][1]? :=
  ⟨(process_updates_row_placement c4PriceData c4SkuData 40 "t1" [c4OldRowA, c4OldRowB]
      (by decide)).1 0 (by decide),
   (process_updates_row_placement c4PriceData c4SkuData 40 "t1" [c4OldRowA, c4OldRowB]
      (by decide)).2 1 (by decide)⟩

/-- C4 counterexample: the crawl result omits ledger SKU `B` (keeping sheet
order), yet no update row is written over a row belonging to a different
SKU - the single update for `A` lands on `A`'s own row and `B`'s trailing
row keeps its old value - contradicting the claim's "whenever the crawl
result omits some ledger SKU ... an update row is written over a sheet row
belonging to a different SKU". -/
theorem process_updates_overwrite_cex :
    (sheetAfterUpdates allSuccess c4PriceData c4SkuData 40 "t1"
        [c4OldRowA, c4OldRowB]).map (·.sku) = ["A", "B"]
    ∧ (sheetAfterUpdates allSuccess c4PriceData c4SkuData 40 "t1"
        [c4OldRowA, c4OldRowB])[1]? = some c4OldRowB
    ∧ "B" ∉ c4PriceData.map Prod.fst
    ∧ "B" ∈ [c4OldRowA, c4OldRowB].map (·.sku) :=
  ⟨by decide, by decide, by decide, by decide⟩

/- ## Accounting of the batch loop, for the retry/aggregation claims -/

/-- The list of batches the loop `for i in range(0, len, batch_size)` walks
through, paired with their batch indices: `fuel` iterations starting at
batch index `b`. -/
def chunksFrom (bs : ℕ) : ℕ → ℕ → List UpdateRow → List (ℕ × List UpdateRow)
  | 0, _, _ => []
  | fuel + 1, b, ups => (b, ups.take bs) :: chunksFrom bs fuel (b + 1) (ups.drop bs)

lemma filter_map_sum_split {α : Type} (P : α → Bool) (f : α → ℕ) (l : List α) :
    (((l.filter P).map f).sum) + (((l.filter (fun a => !P a)).map f).sum) = ((l.map f).sum) := by
  induction l with
  | nil => rfl
  | cons a t ih =>
    cases hP : P a <;> simp [List.filter_cons, hP] <;> omega

lemma chunksFrom_sizes_sum (bs : ℕ) :
    ∀ (fuel b : ℕ) (ups : List UpdateRow),
      (((chunksFrom bs fuel b ups).map (fun p => p.2.length)).sum) = min ups.length (fuel * bs) := by
  intro fuel
  induction fuel with
  | zero =>
    intro b ups
    simp [chunksFrom]
  | succ fuel ih =>
    intro b ups
    rw [chunksFrom, List.map_cons, List.sum_cons, ih (b + 1) (ups.drop bs),
      List.length_take, List.length_drop, Nat.succ_mul]
    omega

lemma runBatchResults_spec (okB : ℕ → Bool) (bs : ℕ) :
    ∀ (fuel b : ℕ) (ups : List UpdateRow) (acc : UpdateResults),
      runBatchResults okB bs fuel b ups acc =
        { updated := acc.updated +
            (((chunksFrom bs fuel b ups).filter (fun p => okB p.1)).map (fun p => p.2.length)).sum,
          failed := acc.failed +
            (((chunksFrom bs fuel b ups).filter (fun p => !okB p.1)).map (fun p => p.2.length)).sum,
          errors := acc.errors ++
            ((chunksFrom bs fuel b ups).filter (fun p => !okB p.1)).map (fun p => errMsg p.2) } := by
  intro fuel
  induction fuel with
  | zero =>
    intro b ups acc
    simp [runBatchResults, chunksFrom]
  | succ fuel ih =>
    intro b ups acc
    show runBatchResults okB bs fuel (b + 1) (ups.drop bs) _ = _
    rw [ih]
    cases hok : okB b <;>
      simp [chunksFrom, List.filter_cons, hok, UpdateResults.mk.injEq, Nat.add_assoc]

lemma updateBatchRun_congr (o o' : ℕ → WriteOutcome) :
    ∀ (remaining attempt : ℕ),
      (∀ a, attempt ≤ a → a < attempt + remaining → o a = o' a) →
      updateBatchRun o attempt remaining = updateBatchRun o' attempt remaining := by
  intro remaining
  induction remaining with
  | zero => intro attempt _; rfl
  | succ remaining ih =>
    intro attempt h
    have ho2 : o attempt = o' attempt := h attempt (Nat.le_refl _) (by omega)
    have hrec : updateBatchRun o (attempt + 1) remaining = updateBatchRun o' (attempt + 1) remaining :=
      ih (attempt + 1) (fun a ha1 ha2 => h a (by omega) (by omega))
    simp only [updateBatchRun, ho2, hrec]

/-- C5: a rate-limited ledger batch write is retried with exponential
backoff (sleeps 2, 4, 8 seconds) within a bound of 3 attempts -
`update_batch` never consults an attempt index beyond 2 - and in
`process_updates` a batch that still fails contributes exactly its size to
`failed` and exactly one aggregated error string naming its SKUs, while
every batch (also after a failure) is accounted, so `updated + failed`
covers all prepared rows. -/
theorem update_batch_retry_spec :
    (∀ o o' : ℕ → WriteOutcome, (∀ a, a < 3 → o a = o' a) → update_batch o = update_batch o')
    ∧ update_batch (fun _ => WriteOutcome.rateLimit) = (false, [2, 4, 8])
    ∧ ∀ (outcomes : ℕ → ℕ → WriteOutcome) (pd : List (String × PriceEntry))
        (sd : List (String × SkuInfo)) (m : ℚ) (ts : String),
        (process_updates outcomes pd sd m ts).updated
            + (process_updates outcomes pd sd m ts).failed
            = (prepareUpdates pd sd m ts).length
        ∧ (process_updates outcomes pd sd m ts).failed =
            ((((chunksFrom 30 (((prepareUpdates pd sd m ts).length + 30 - 1) / 30) 0
                (prepareUpdates pd sd m ts)).filter
                (fun p => !(update_batch (outcomes p.1)).1)).map (fun p => p.2.length)).sum)
        ∧ (process_updates outcomes pd sd m ts).errors =
            (((chunksFrom 30 (((prepareUpdates pd sd m ts).length + 30 - 1) / 30) 0
                (prepareUpdates pd sd m ts)).filter
                (fun p => !(update_batch (outcomes p.1)).1)).map (fun p => errMsg p.2)) := by
  refine ⟨?_, by decide, ?_⟩
  · intro o o' h
    exact updateBatchRun_congr o o' 3 0 (fun a _ h2 => h a (by omega))
  · intro outcomes pd sd m ts
    have h1 := filter_map_sum_split (fun p => (update_batch (outcomes p.1)).1)
      (fun p => p.2.length)
      (chunksFrom 30 (((prepareUpdates pd sd m ts).length + 30 - 1) / 30) 0
        (prepareUpdates pd sd m ts))
    have h2 := chunksFrom_sizes_sum 30 (((prepareUpdates pd sd m ts).length + 30 - 1) / 30) 0
      (prepareUpdates pd sd m ts)
    have h3 := ceil_mul_ge (prepareUpdates pd sd m ts).length 30 (by omega)
    refine ⟨?_, ?_, ?_⟩ <;>
      simp only [process_updates,
        runBatchResults_spec (fun b => (update_batch (outcomes b)).1) 30, Nat.zero_add,
        List.nil_append]
    omega

/-- Outcome oracle agreeing with plain success on the attempts `update_batch`
can reach (0, 1, 2) and differing beyond them. -/
def c5OutA : ℕ → WriteOutcome :=
  fun a => if a < 3 then WriteOutcome.success else WriteOutcome.rateLimit

/-- Outcome oracle that always succeeds. -/
def c5OutB : ℕ → WriteOutcome := fun _ => WriteOutcome.success

/-- Per-batch outcome oracle whose batch 0 always fails with a
non-rate-limit error. -/
def c5Outcomes : ℕ → ℕ → WriteOutcome :=
  fun b _ => if b = 0 then WriteOutcome.otherError else WriteOutcome.success

/-- Witness for the C5 theorem at concrete oracles and a one-SKU crawl. -/
theorem update_batch_retry_spec_witness :
    update_batch c5OutA = update_batch c5OutB
    ∧ update_batch (fun _ => WriteOutcome.rateLimit) = (false, [2, 4, 8])
    ∧ (process_updates c5Outcomes [("A", ⟨100, "t1", "ACDC Dynamics"⟩)] [] 40 "t1").updated
        + (process_updates c5Outcomes [("A", ⟨100, "t1", "ACDC Dynamics"⟩)] [] 40 "t1").failed
        = (prepareUpdates [("A", ⟨100, "t1", "ACDC Dynamics"⟩)] [] 40 "t1").length :=
  ⟨update_batch_retry_spec.1 c5OutA c5OutB (by decide),
   update_batch_retry_spec.2.1,
   (update_batch_retry_spec.2.2 c5Outcomes [("A", ⟨100, "t1", "ACDC Dynamics"⟩)] [] 40 "t1").1⟩

/- ## The crawler: `ACDCCrawler.process_sku` and `ACDCCrawler.batch_crawl`
   (src/crawler.py:198-254) -/

/-- Embedding of `process_sku` (src/crawler.py:198-217) acting on the shared
results dict: `price` abstracts `get_price_with_rate_limit` (the fetched
price for a SKU, or nothing), and `if price:` keeps only truthy (nonzero)
prices; on success the record `{price, timestamp, source}` is stored under
the SKU key. -/
def crawlStep (price : String → Option ℚ) (ts : String)
    (results : List (String × PriceEntry)) (sku : String) : List (String × PriceEntry) :=
  match price sku with
  | some p => if p ≠ 0 then insertReplace results sku ⟨p, ts, "ACDC Dynamics"⟩ else results
  | none => results

/-- The batch loop of `batch_crawl` (src/crawler.py:225-247): `fuel` counts
remaining batches; each batch of `bs` SKUs is processed (worker completion
order modelled as batch order; the results dict is guarded by a lock and
keyed by SKU, so its contents do not depend on interleaving). -/
def batchCrawlAux (price : String → Option ℚ) (ts : String) (bs : ℕ) :
    ℕ → List String → List (String × PriceEntry) → List (String × PriceEntry)
  | 0, _, res => res
  | fuel + 1, skus, res =>
    batchCrawlAux price ts bs fuel (skus.drop bs) ((skus.take bs).foldl (crawlStep price ts) res)

/-- Embedding of `ACDCCrawler.batch_crawl` (src/crawler.py:219-250):
`self.results = {}`, then `total_batches = ceil(len/batch_size)` batches. -/
def batch_crawl (price : String → Option ℚ) (ts : String) (skus : List String)
    (bs : ℕ) : List (String × PriceEntry) :=
  batchCrawlAux price ts bs ((skus.length + bs - 1) / bs) skus []

/-- The record `batch_crawl` keeps for one SKU: present exactly when the
fetched price is truthy. -/
def crawlEntry (price : String → Option ℚ) (ts : String) (sku : String) :
    Option (String × PriceEntry) :=
  match price sku with
  | some p => if p ≠ 0 then some (sku, ⟨p, ts, "ACDC Dynamics"⟩) else none
  | none => none

lemma keysOf_insertReplace {α : Type} (l : List (String × α)) (k : String) (v : α) :
    keysOf (insertReplace l k v) =
      if l.any (fun p => p.1 = k) then keysOf l else keysOf l ++ [k] := by
  unfold insertReplace keysOf
  split
  · rw [List.map_map]
    apply List.map_congr_left
    intro p _
    by_cases hp : p.1 = k
    · simp [hp]
    · simp [hp]
  · rw [List.map_append]
    rfl

lemma not_any_key {α : Type} (l : List (String × α)) (k : String)
    (h : ¬ l.any (fun p => p.1 = k)) : k ∉ keysOf l := by
  intro hk
  apply h
  rw [List.any_eq_true]
  obtain ⟨p, hp, hpk⟩ := List.mem_map.1 hk
  exact ⟨p, hp, by simp [hpk]⟩

lemma crawlStep_none (price : String → Option ℚ) (ts : String)
    (res : List (String × PriceEntry)) (sku : String) (h : price sku = none) :
    crawlStep price ts res sku = res := by
  simp [crawlStep, h]

lemma crawlStep_some (price : String → Option ℚ) (ts : String)
    (res : List (String × PriceEntry)) (sku : String) (p : ℚ)
    (h : price sku = some p) (h0 : p ≠ 0) :
    crawlStep price ts res sku = insertReplace res sku ⟨p, ts, "ACDC Dynamics"⟩ := by
  simp [crawlStep, h, h0]

lemma crawlStep_some_zero (price : String → Option ℚ) (ts : String)
    (res : List (String × PriceEntry)) (sku : String) (p : ℚ)
    (h : price sku = some p) (h0 : ¬ p ≠ 0) :
    crawlStep price ts res sku = res := by
  rw [not_not] at h0
  simp [crawlStep, h, h0]

lemma crawlEntry_none (price : String → Option ℚ) (ts : String) (sku : String)
    (h : price sku = none) : crawlEntry price ts sku = none := by
  simp [crawlEntry, h]

lemma crawlEntry_some (price : String → Option ℚ) (ts : String) (sku : String) (p : ℚ)
    (h : price sku = some p) (h0 : p ≠ 0) :
    crawlEntry price ts sku = some (sku, ⟨p, ts, "ACDC Dynamics"⟩) := by
  simp [crawlEntry, h, h0]

lemma crawlEntry_some_zero (price : String → Option ℚ) (ts : String) (sku : String) (p : ℚ)
    (h : price sku = some p) (h0 : ¬ p ≠ 0) : crawlEntry price ts sku = none := by
  rw [not_not] at h0
  simp [crawlEntry, h, h0]

lemma crawlStep_keys_nodup (price : String → Option ℚ) (ts : String)
    (res : List (String × PriceEntry)) (sku : String)
    (h : (keysOf res).Nodup) : (keysOf (crawlStep price ts res sku)).Nodup := by
  cases hp : price sku with
  | none => rw [crawlStep_none price ts res sku hp]; exact h
  | some p =>
    by_cases hp0 : p ≠ 0
    · rw [crawlStep_some price ts res sku p hp hp0, keysOf_insertReplace]
      split
      · exact h
      · rename_i hany
        rw [List.nodup_append]
        refine ⟨h, List.nodup_singleton _, ?_⟩
        intro a ha hb
        rw [List.mem_singleton] at hb
        subst hb
        exact not_any_key res _ hany ha
    · rw [crawlStep_some_zero price ts res sku p hp hp0]
      exact h

lemma foldl_crawlStep_keys_nodup (price : String → Option ℚ) (ts : String) :
    ∀ (skus : List String) (res : List (String × PriceEntry)),
      (keysOf res).Nodup → (keysOf (skus.foldl (crawlStep price ts) res)).Nodup := by
  intro skus
  induction skus with
  | nil => intro res h; exact h
  | cons s rest ih =>
    intro res h
    exact ih _ (crawlStep_keys_nodup price ts res s h)

lemma batchCrawlAux_eq_foldl (price : String → Option ℚ) (ts : String) (bs : ℕ) :
    ∀ (fuel : ℕ) (skus : List String) (res : List (String × PriceEntry)),
      batchCrawlAux price ts bs fuel skus res =
        (skus.take (fuel * bs)).foldl (crawlStep price ts) res := by
  intro fuel
  induction fuel with
  | zero =>
    intro skus res
    rw [Nat.zero_mul, List.take_zero]
    rfl
  | succ fuel ih =>
    intro skus res
    show batchCrawlAux price ts bs fuel (skus.drop bs) _ = _
    rw [ih, ← List.foldl_append, ← List.take_add, Nat.succ_mul, Nat.add_comm (fuel * bs) bs]

lemma batch_crawl_eq_foldl (price : String → Option ℚ) (ts : String)
    (skus : List String) (bs : ℕ) (hbs : 0 < bs) :
    batch_crawl price ts skus bs = skus.foldl (crawlStep price ts) [] := by
  unfold batch_crawl
  rw [batchCrawlAux_eq_foldl, List.take_of_length_le (ceil_mul_ge _ _ hbs)]

lemma foldl_crawlStep_fresh (price : String → Option ℚ) (ts : String) :
    ∀ (skus : List String) (res : List (String × PriceEntry)),
      skus.Nodup → (∀ s ∈ skus, s ∉ keysOf res) →
      skus.foldl (crawlStep price ts) res = res ++ skus.filterMap (crawlEntry price ts) := by
  intro skus
  induction skus with
  | nil =>
    intro res _ _
    simp
  | cons s rest ih =>
    intro res hnd hfresh
    have hs : s ∉ keysOf res := hfresh s (List.mem_cons_self s rest)
    have hany : ¬ (res.any (fun p => p.1 = s) = true) := by
      intro hc
      rw [List.any_eq_true] at hc
      obtain ⟨p, hp, hpk⟩ := hc
      apply hs
      rw [decide_eq_true_iff] at hpk
      exact hpk ▸ List.mem_map_of_mem (·.1) hp
    rw [List.foldl_cons]
    cases hp : price s with
    | none =>
      rw [crawlStep_none price ts res s hp,
        List.filterMap_cons_none (crawlEntry_none price ts s hp)]
      exact ih res (List.Nodup.of_cons hnd) (fun x hx => hfresh x (List.mem_cons_of_mem s hx))
    | some p =>
      by_cases hp0 : p ≠ 0
      · rw [crawlStep_some price ts res s p hp hp0]
        rw [show insertReplace res s ⟨p, ts, "ACDC Dynamics"⟩ =
            res ++ [(s, ⟨p, ts, "ACDC Dynamics"⟩)] from by rw [insertReplace, if_neg hany]]
        rw [List.filterMap_cons_some (crawlEntry_some price ts s p hp hp0)]
        have hfresh2 : ∀ x ∈ rest,
            x ∉ keysOf (res ++ [(s, (⟨p, ts, "ACDC Dynamics"⟩ : PriceEntry))]) := by
          intro x hx hc
          rw [keysOf, List.map_append] at hc
          rcases List.mem_append.1 hc with hc1 | hc2
          · exact hfresh x (List.mem_cons_of_mem s hx) hc1
          · simp only [List.map_cons, List.map_nil, List.mem_singleton] at hc2
            rw [List.nodup_cons] at hnd
            exact hnd.1 (hc2 ▸ hx)
        have hih := ih (res ++ [(s, ⟨p, ts, "ACDC Dynamics"⟩)]) (List.Nodup.of_cons hnd) hfresh2
        rw [hih, List.append_assoc]
        rfl
      · rw [crawlStep_some_zero price ts res s p hp hp0,
          List.filterMap_cons_none (crawlEntry_some_zero price ts s p hp hp0)]
        exact ih res (List.Nodup.of_cons hnd) (fun x hx => hfresh x (List.mem_cons_of_mem s hx))

lemma filterMap_length_add_filter_none {α β : Type} (f : α → Option β) (l : List α) :
    (l.filterMap f).length + (l.filter (fun a => (f a).isNone)).length = l.length := by
  induction l with
  | nil => rfl
  | cons a t ih =>
    cases hf : f a <;>
      simp [List.filterMap_cons, List.filter_cons, hf] <;>
      omega

lemma batch_crawl_filterMap (price : String → Option ℚ) (ts : String)
    (skus : List String) (bs : ℕ) (hbs : 0 < bs) (hnd : skus.Nodup) :
    batch_crawl price ts skus bs = skus.filterMap (crawlEntry price ts) := by
  rw [batch_crawl_eq_foldl price ts skus bs hbs]
  have heq := foldl_crawlStep_fresh price ts skus [] hnd (by intro s _ hc; cases hc)
  rw [List.nil_append] at heq
  exact heq

/-- C6 (amended): the crawl result is keyed by SKU, so each requested SKU
appears at most once; under distinct inputs the result is exactly the list
of success entries in input order, and its size plus the number of SKUs
whose fetch produced no (truthy) price equals the number of inputs. The
result itself records no failure entries: an input without a truthy price
simply does not appear. -/
theorem batch_crawl_result_spec (price : String → Option ℚ) (ts : String)
    (skus : List String) (bs : ℕ) (hbs : 0 < bs) :
    (keysOf (batch_crawl price ts skus bs)).Nodup
    ∧ (skus.Nodup →
        batch_crawl price ts skus bs = skus.filterMap (crawlEntry price ts)
        ∧ (batch_crawl price ts skus bs).length
            + (skus.filter (fun s => (crawlEntry price ts s).isNone)).length
            = skus.length) := by
  constructor
  · rw [batch_crawl_eq_foldl price ts skus bs hbs]
    exact foldl_crawlStep_keys_nodup price ts skus [] List.nodup_nil
  · intro hnd
    rw [batch_crawl_filterMap price ts skus bs hbs hnd]
    exact ⟨rfl, filterMap_length_add_filter_none (crawlEntry price ts) skus⟩

/-- Price oracle for the C6 witness and counterexample: only SKU `A`
yields a price. -/
def c6Oracle : String → Option ℚ := fun s => if s = "A" then some 100 else none

/-- Witness for the C6 theorem at a concrete two-SKU crawl. -/
theorem batch_crawl_result_spec_witness :
    (keysOf (batch_crawl c6Oracle "t1" ["A", "B"] 5)).Nodup
    ∧ batch_crawl c6Oracle "t1" ["A", "B"] 5 =
        (["A", "B"] : List String).filterMap (crawlEntry c6Oracle "t1") :=
  ⟨(batch_crawl_result_spec c6Oracle "t1" ["A", "B"] 5 (by decide)).1,
   (((batch_crawl_result_spec c6Oracle "t1" ["A", "B"] 5 (by decide)).2 (by decide))).1⟩

/-- C6 counterexample: with inputs `[A, B]` where fetching `B` fails, the
crawl result is the single success entry for `A`; nothing in the returned
structure records `B`'s failure, so the number of recorded successes plus
recorded failures (there are none) is 1, not the input count 2. -/
theorem batch_crawl_failures_cex :
    batch_crawl c6Oracle "t1" ["A", "B"] 5 = [("A", ⟨100, "t1", "ACDC Dynamics"⟩)]
    ∧ c6Oracle "B" = none
    ∧ (batch_crawl c6Oracle "t1" ["A", "B"] 5).length + 0 ≠ (["A", "B"] : List String).length :=
  ⟨by decide, by decide, by decide⟩

/-- The crawl as it executes while an external cancellation is requested
after batch `cancelAfterBatch` has started (1-based). `batch_crawl`
(src/crawler.py:219-250) consults no cancellation signal - the `cancel_event`
of src/main.py is never passed to or read by `ACDCCrawler` - so the
execution is the same function of the SKU list and fetched prices for
every cancellation instant, and the parameter is not read. -/
def batchCrawlCancelled (cancelAfterBatch : ℕ) (price : String → Option ℚ) (ts : String)
    (skus : List String) (bs : ℕ) : List (String × PriceEntry) :=
  batch_crawl price ts skus bs

/-- C7 (amended): the crawler has no cancellation: its result is identical
for every cancellation instant, and every SKU whose fetch yields a truthy
price appears in the result no matter in which batch it sits and no matter
when cancellation is requested. -/
theorem batch_crawl_cancellation (k k2 : ℕ) (price : String → Option ℚ) (ts : String)
    (skus : List String) (bs : ℕ) (hbs : 0 < bs) (hnd : skus.Nodup) :
    batchCrawlCancelled k price ts skus bs = batchCrawlCancelled k2 price ts skus bs
    ∧ ∀ s ∈ skus, (crawlEntry price ts s).isSome →
        s ∈ keysOf (batchCrawlCancelled k price ts skus bs) := by
  refine ⟨rfl, ?_⟩
  intro s hs hsome
  show s ∈ keysOf (batch_crawl price ts skus bs)
  rw [batch_crawl_filterMap price ts skus bs hbs hnd]
  obtain ⟨e, he⟩ := Option.isSome_iff_exists.1 hsome
  have hkey : e.1 = s := by
    rcases hp : price s with _ | p
    · rw [crawlEntry_none price ts s hp] at he
      cases he
    · by_cases hp0 : p ≠ 0
      · rw [crawlEntry_some price ts s p hp hp0] at he
        injection he with he
        rw [← he]
      · rw [crawlEntry_some_zero price ts s p hp hp0] at he
        cases he
  apply List.mem_map.2
  exact ⟨e, List.mem_filterMap.2 ⟨s, hs, he⟩, hkey⟩

/-- Price oracle for the C7 witness and counterexample: every SKU yields a
price. -/
def c7Oracle : String → Option ℚ := fun _ => some 100

/-- Witness for the C7 theorem: six SKUs in batches of five, cancellation
requested after batch 1. -/
theorem batch_crawl_cancellation_witness :
    batchCrawlCancelled 1 c7Oracle "t1" ["A", "B", "C", "D", "E", "F"] 5 =
      batchCrawlCancelled 0 c7Oracle "t1" ["A", "B", "C", "D", "E", "F"] 5
    ∧ "F" ∈ keysOf (batchCrawlCancelled 1 c7Oracle "t1" ["A", "B", "C", "D", "E", "F"] 5) :=
  ⟨(batch_crawl_cancellation 1 0 c7Oracle "t1" ["A", "B", "C", "D", "E", "F"] 5
      (by decide) (by decide)).1,
   (batch_crawl_cancellation 1 0 c7Oracle "t1" ["A", "B", "C", "D", "E", "F"] 5
      (by decide) (by decide)).2 "F" (by decide) (by decide)⟩

/-- C7 counterexample: `F` is the sole member of batch 2 (batch size 5),
cancellation is requested after batch 1 has started and before batch 2,
yet `F` appears in the final crawl result - the claim's "no SKU belonging
to batches k+1..n appears" fails because no cancellation check exists. -/
theorem batch_crawl_cancellation_cex :
    "F" ∈ keysOf (batchCrawlCancelled 1 c7Oracle "t1" ["A", "B", "C", "D", "E", "F"] 5)
    ∧ (["A", "B", "C", "D", "E", "F"] : List String).drop 5 = ["F"] :=
  ⟨by decide, by decide⟩

/- ## The run driver: `PriceMonitor.get_skus_and_data` and
   `PriceMonitor.check_all_prices` (src/price_monitor.py:66-95, 189-226) -/

/-- One ledger row as read from the sheet range `A2:C`, already split into
SKU, title and numeric current price (the per-cell defaulting of
src/price_monitor.py:80-83 happens upstream of this abstraction). -/
structure LedgerRow where
  sku : String
  title : String
  current : ℚ
deriving DecidableEq

/-- Embedding of `get_skus_and_data` (src/price_monitor.py:66-95). The
`Except` argument models the sheets read: any exception is caught by the
broad `except` and the empty dict is returned (src/price_monitor.py:92-95);
a missing/empty value range also returns the empty dict
(src/price_monitor.py:74-76); otherwise the rows are keyed by SKU. -/
def get_skus_and_data (read : Except String (List LedgerRow)) : List (String × SkuInfo) :=
  match read with
  | .error _ => []
  | .ok rows =>
    if rows = [] then []
    else rows.foldl (fun acc r => insertReplace acc r.sku ⟨r.title, r.current⟩) []

/-- Embedding of `check_all_prices` (src/price_monitor.py:189-226): read the
ledger; if the SKU map is empty, return
`{updated: 0, failed: 0, errors: ['No SKUs found in sheet']}` at once;
otherwise crawl all SKUs (`crawl` abstracts `targeted_crawl`); an empty
crawl result yields `{0, len(sku_data), ['No prices found']}`; otherwise
run `process_updates`. -/
def check_all_prices (read : Except String (List LedgerRow))
    (crawl : List String → List (String × PriceEntry))
    (outcomes : ℕ → ℕ → WriteOutcome) (markup_percentage : ℚ) (ts : String) : UpdateResults :=
  let sku_data := get_skus_and_data read
  if sku_data = [] then ⟨0, 0, ["No SKUs found in sheet"]⟩
  else
    let price_data := crawl (keysOf sku_data)
    if price_data = [] then ⟨0, sku_data.length, ["No prices found"]⟩
    else process_updates outcomes price_data sku_data markup_percentage ts

/-- Crawl stub for the C8 counterexample: a working crawler that would
return a price for SKU `A`. -/
def c8Crawl : List String → List (String × PriceEntry) :=
  fun _ => [("A", ⟨100, "t1", "ACDC Dynamics"⟩)]

/-- C8 (amended): a ledger read failure is swallowed inside
`get_skus_and_data` (empty dict), so the run returns
`{updated: 0, failed: 0, errors: ['No SKUs found in sheet']}` without
consulting the crawler or the write backend - the identical result the run
produces over an empty ledger, for any crawler and write backend. -/
theorem check_all_prices_read_failure (e : String)
    (crawl crawl2 : List String → List (String × PriceEntry))
    (outcomes outcomes2 : ℕ → ℕ → WriteOutcome) (m m2 : ℚ) (ts ts2 : String) :
    check_all_prices (Except.error e) crawl outcomes m ts =
      ⟨0, 0, ["No SKUs found in sheet"]⟩
    ∧ check_all_prices (Except.error e) crawl outcomes m ts =
      check_all_prices (Except.ok []) crawl2 outcomes2 m2 ts2 :=
  ⟨rfl, rfl⟩

/-- C8 counterexample: the run over a failing ledger read returns exactly
the same summary as a successful run over an empty ledger - the two
outcomes are not distinguishable, and the read failure is not surfaced as
a run-level failure distinct from the empty case. -/
theorem check_all_prices_read_failure_cex :
    check_all_prices (Except.error "connection failed") c8Crawl allSuccess 40 "t1" =
      check_all_prices (Except.ok []) c8Crawl allSuccess 40 "t1"
    ∧ check_all_prices (Except.error "connection failed") c8Crawl allSuccess 40 "t1" =
      ⟨0, 0, ["No SKUs found in sheet"]⟩ :=
  ⟨rfl, rfl⟩

/-- Crawl stub for the C9 counterexample. -/
def c9Crawl : List String → List (String × PriceEntry) :=
  fun _ => [("A", ⟨100, "t1", "ACDC Dynamics"⟩)]

/-- C9 (amended): a run over a ledger with zero entries is a no-op with
`updated = 0` and `failed = 0` and performs no crawl or writes, but it does
report one error string, `'No SKUs found in sheet'` - it is not
error-free. -/
theorem check_all_prices_empty_ledger
    (crawl : List String → List (String × PriceEntry))
    (outcomes : ℕ → ℕ → WriteOutcome) (m : ℚ) (ts : String) :
    check_all_prices (Except.ok []) crawl outcomes m ts = ⟨0, 0, ["No SKUs found in sheet"]⟩
    ∧ (check_all_prices (Except.ok []) crawl outcomes m ts).updated = 0
    ∧ (check_all_prices (Except.ok []) crawl outcomes m ts).failed = 0 :=
  ⟨rfl, rfl, rfl⟩

/-- C9 counterexample: the empty-ledger run reports the error string
`'No SKUs found in sheet'`, so its error list is not empty as the claim
requires. -/
theorem check_all_prices_empty_ledger_cex :
    (check_all_prices (Except.ok []) c9Crawl allSuccess 40 "t1").errors =
      ["No SKUs found in sheet"]
    ∧ (["No SKUs found in sheet"] : List String) ≠ [] :=
  ⟨rfl, by decide⟩

/- ## SKU normalization (modelled from the spec; no normalization routine
   exists under src/) -/

/-- Modelled from the spec: the per-character step of SKU normalization
(spec section 3) - slashes and spaces become the single delimiter `-`,
everything else is uppercased. -/
def normChar (c : Char) : Char := if c = '/' ∨ c = ' ' then '-' else c.toUpper

/-- Modelled from the spec: collapse doubled delimiters, keeping one dash
per run of dashes. -/
def squashDashes : List Char → List Char
  | [] => []
  | c :: rest =>
    if c = '-' ∧ (squashDashes rest).head? = some '-' then squashDashes rest
    else c :: squashDashes rest

/-- Modelled from the spec: SKU normalization - uppercase, slashes and
spaces replaced by a single delimiter, no doubled delimiters. -/
def normalizeSku (s : String) : String := ⟨squashDashes (s.data.map normChar)⟩

lemma char_ofNat_toNat_upper : ∀ k, k < 123 → 64 ≤ k → (Char.ofNat k).toNat = k := by decide

lemma char_eq_of_toNat (a b : Char) (h : a.toNat = b.toNat) : a = b := by
  rw [← Char.ofNat_toNat a, ← Char.ofNat_toNat b, h]

lemma toNat_toUpper (c : Char) :
    (c.toUpper).toNat = if c.toNat ≥ 97 ∧ c.toNat ≤ 122 then c.toNat - 32 else c.toNat := by
  show (if c.toNat ≥ 97 ∧ c.toNat ≤ 122 then Char.ofNat (c.toNat - 32) else c).toNat = _
  split_ifs with h
  · exact char_ofNat_toNat_upper (c.toNat - 32) (by omega) (by omega)
  · rfl

lemma toUpper_idem (c : Char) : c.toUpper.toUpper = c.toUpper := by
  apply char_eq_of_toNat
  rw [toNat_toUpper c.toUpper, toNat_toUpper c]
  split_ifs <;> omega

lemma normChar_idem (c : Char) : normChar (normChar c) = normChar c := by
  by_cases h : c = '/' ∨ c = ' '
  · have h1 : normChar c = '-' := by rw [normChar, if_pos h]
    rw [h1]
    decide
  · have h1 : normChar c = c.toUpper := by rw [normChar, if_neg h]
    have hslash : c.toUpper ≠ '/' := by
      intro hc
      have h47 : (c.toUpper).toNat = 47 := by rw [hc]; rfl
      rw [toNat_toUpper c] at h47
      split_ifs at h47 with hl
      · omega
      · exact h (Or.inl (char_eq_of_toNat c '/' h47))
    have hspace : c.toUpper ≠ ' ' := by
      intro hc
      have h32 : (c.toUpper).toNat = 32 := by rw [hc]; rfl
      rw [toNat_toUpper c] at h32
      split_ifs at h32 with hl
      · omega
      · exact h (Or.inr (char_eq_of_toNat c ' ' h32))
    rw [h1, normChar, if_neg (by tauto)]
    exact toUpper_idem c

lemma squashDashes_cons (c : Char) (rest : List Char) :
    squashDashes (c :: rest) =
      if c = '-' ∧ (squashDashes rest).head? = some '-' then squashDashes rest
      else c :: squashDashes rest := rfl

lemma mem_squashDashes : ∀ (l : List Char) (a : Char), a ∈ squashDashes l → a ∈ l := by
  intro l
  induction l with
  | nil => intro a ha; exact ha
  | cons c rest ih =>
    intro a ha
    rw [squashDashes_cons] at ha
    split_ifs at ha with h
    · exact List.mem_cons.2 (Or.inr (ih a ha))
    · rcases List.mem_cons.1 ha with h1 | h2
      · exact List.mem_cons.2 (Or.inl h1)
      · exact List.mem_cons.2 (Or.inr (ih a h2))

lemma squashDashes_chain' :
    ∀ l : List Char, List.Chain' (fun a b => ¬(a = '-' ∧ b = '-')) (squashDashes l) := by
  intro l
  induction l with
  | nil => exact List.chain'_nil
  | cons c rest ih =>
    rw [squashDashes_cons]
    split_ifs with h
    · exact ih
    · refine List.chain'_cons'.2 ⟨?_, ih⟩
      intro b hb hcb
      exact h ⟨hcb.1, by rw [Option.mem_def] at hb; rw [hb, hcb.2]⟩

lemma squashDashes_of_chain' :
    ∀ l : List Char, List.Chain' (fun a b => ¬(a = '-' ∧ b = '-')) l → squashDashes l = l := by
  intro l
  induction l with
  | nil => intro _; rfl
  | cons c rest ih =>
    intro hc
    rw [squashDashes_cons, ih hc.tail]
    rw [if_neg]
    intro hcontra
    obtain ⟨h1, h2⟩ := hcontra
    cases rest with
    | nil => cases h2
    | cons d t =>
      have hd : d = '-' := by
        rw [List.head?_cons] at h2
        injection h2 with h2
      exact (List.chain'_cons.1 hc).1 ⟨h1, hd⟩

/-- C10: SKU normalization (modelled from the spec, which defines the
normalized form as uppercase with slashes and spaces replaced by a single
delimiter and no doubled delimiters) is idempotent:
`normalize(normalize(s)) = normalize(s)` for every string. -/
theorem normalizeSku_idem : ∀ s : String, normalizeSku (normalizeSku s) = normalizeSku s := by
  intro s
  have hmap : (squashDashes (s.data.map normChar)).map normChar
      = squashDashes (s.data.map normChar) := by
    have hcongr : ∀ a ∈ squashDashes (s.data.map normChar), normChar a = a := by
      intro a ha
      obtain ⟨d, _, hd⟩ := List.mem_map.1 (mem_squashDashes _ a ha)
      rw [← hd, normChar_idem]
    calc (squashDashes (s.data.map normChar)).map normChar
        = (squashDashes (s.data.map normChar)).map id := List.map_congr_left hcongr
      _ = squashDashes (s.data.map normChar) := List.map_id _
  show String.mk (squashDashes ((String.mk (squashDashes (s.data.map normChar))).data.map normChar))
      = String.mk (squashDashes (s.data.map normChar))
  rw [show (String.mk (squashDashes (s.data.map normChar))).data
      = squashDashes (s.data.map normChar) from rfl]
  rw [hmap, squashDashes_of_chain' _ (squashDashes_chain' (s.data.map normChar))]
